import Mathlib

/-!
Verification of the swap-execution engine of `astriaorg/swap-example`.

The repository ships two sibling implementations of the engine in
`src/SwapExecution.ts`:
  * a path-encoding variant (namespace `VariantPath` below): `SwapRouter`
    with `encodePath` / `encodeSwapData` / `approveTokenIfNeeded`, whose
    `executeSwap` always builds `exactInput` parameters, plus a `Trade`
    constructor that fills `outputAmount` with a placeholder copy of the
    given amount;
  * a single-hop variant (namespace `VariantSingle` below): `SwapRouter`
    whose `executeSwap` always builds `exactInputSingle` /
    `exactOutputSingle` parameters from the first hop, plus a
    `createTradeFromQuote` that takes both amounts from the quote.

Shared value types (`Token`, `TokenAmount`, `Pool`, `Route`, `TradeType`)
are textually identical in the two variants and are modelled once.

Modelling conventions:
  * JSBI / JS `bigint` values are `Int`; JS bigint division truncates
    toward zero, which is `Int.tdiv`.
  * JS strings are `String`; `toLowerCase` on the ASCII addresses is
    `Char.toLower` mapped over the characters, `slice(2)` is a drop of
    two characters, `toString(16).padStart(6, '0')` is `feeHex`.
  * Decimal-string fields of the external quote that the code immediately
    feeds to `JSBI.BigInt` / `parseInt` (`amount`, `quote`, `fee`,
    `tickCurrent`) are modelled already parsed, as `Int` / `Nat`; the
    string-to-number parse itself is not under test.  Quote fields the
    engine never reads (gas estimates, block number, ...) are omitted.
  * Reading a missing array element (JS `undefined` followed by a member
    access, which throws a `TypeError`) is modelled by `Except.error`;
    array indexing whose bounds are guaranteed by construction uses
    `List.getD` with an inert default element.
  * The network-bound steps of `executeSwap` (allowance read, approval,
    static call, gas estimation, submission) are modelled by a trace of
    `Action`s produced against an `ExecEnv` describing what the chain
    would answer at each suspension point.
-/

/-- `ethers.ZeroAddress`: the native-asset sentinel address. -/
def ZeroAddress : String := "0x0000000000000000000000000000000000000000"

/-- `ethers.MaxUint256`: the unlimited-allowance constant, `2^256 - 1`. -/
def MaxUint256 : Int := 2 ^ 256 - 1

/-- JS `s.toLowerCase()` on the ASCII strings used for addresses. -/
def strLower (s : String) : String := ⟨s.data.map Char.toLower⟩

/-- JS `s.slice(n)` for the address strings (drop the first `n` chars). -/
def strSlice (s : String) (n : Nat) : String := ⟨s.data.drop n⟩

/-- `Token` class: chain id, address, decimals, symbol. -/
structure Token where
  chainId : Int
  address : String
  decimals : Nat
  symbol : String
deriving DecidableEq, Repr

/-- `Token.equals`: same chainId and case-insensitive address equality. -/
def Token.equals (a b : Token) : Bool :=
  a.chainId == b.chainId && strLower a.address == strLower b.address

/-- `TokenAmount` class: a token plus its raw JSBI amount in minor units. -/
structure TokenAmount where
  token : Token
  raw : Int
deriving DecidableEq, Repr

/-- The `decimalScale` field computed by the `TokenAmount` constructor. -/
def TokenAmount.decimalScale (a : TokenAmount) : Int :=
  10 ^ a.token.decimals

/-- `Pool` interface: two unordered tokens, a fee tier, optional curve state. -/
structure Pool where
  token0 : Token
  token1 : Token
  fee : Nat
  sqrtRatioX96 : Option String
  liquidity : Option String
  tickCurrent : Option Int
deriving DecidableEq, Repr

/-- An inert token used as the `List.getD` default where the source
indexes arrays whose bounds are guaranteed by construction. -/
def defaultToken : Token := ⟨0, "", 0, ""⟩

/-- An inert pool used as the `List.getD` default. -/
def defaultPool : Pool := ⟨defaultToken, defaultToken, 0, none, none, none⟩

/-- One step of the `pools.reduce` in the `Route` constructor: pick which
side of the pool equals the running last token (falling back to `input`
on the first step, JS `tokens[tokens.length - 1] || input`), push the
other side (and the matching side first when the accumulator is empty). -/
def routeStep (input : Token) (tokens : List Token) (pool : Pool) : List Token :=
  let cur := (tokens.getLast?).getD input
  let isIn := pool.token0.equals cur
  let tokenIn := if isIn then pool.token0 else pool.token1
  let tokenOut := if isIn then pool.token1 else pool.token0
  (if tokens.isEmpty then [tokenIn] else tokens) ++ [tokenOut]

/-- The derived `path` of the `Route` constructor: the `reduce` over the
pool sequence starting from the empty accumulator. -/
def buildPath (pools : List Pool) (input : Token) : List Token :=
  pools.foldl (routeStep input) []

/-- `Route` class: pools, derived token path, declared input and output. -/
structure Route where
  pools : List Pool
  path : List Token
  input : Token
  output : Token
deriving DecidableEq, Repr

/-- The `Route` constructor.  It derives the path by `buildPath` and then
checks `path[0].address !== input.address` and
`path[path.length - 1].address !== output.address`.  On an empty pool
list the path is empty and `path[0].address` is a member access on JS
`undefined`, which throws; that is the `.error "TypeError ..."` branch. -/
def mkRoute (pools : List Pool) (input output : Token) : Except String Route :=
  match (buildPath pools input).head?, (buildPath pools input).getLast? with
  | some first, some last =>
    if first.address ≠ input.address then
      .error "First token in path must match input token"
    else if last.address ≠ output.address then
      .error "Last token in path must match output token"
    else
      .ok ⟨pools, buildPath pools input, input, output⟩
  | _, _ => .error "TypeError: cannot read properties of undefined"

/-- `TradeType` enum. -/
inductive TradeType where
  | EXACT_INPUT
  | EXACT_OUTPUT
deriving DecidableEq, Repr

/-- `Trade`: a route, a direction, and the two committed amounts. -/
structure Trade where
  route : Route
  type : TradeType
  inputAmount : TokenAmount
  outputAmount : TokenAmount
deriving DecidableEq, Repr

/-- `SwapOptions`: recipient, slippage tolerance in basis points, deadline. -/
structure SwapOptions where
  recipient : String
  slippageTolerance : Int
  deadline : Int
deriving DecidableEq, Repr

/-- `SwapRouter.calculateMinimumOut` (identical in both variants):
`raw * (10000 - slippageTolerance) / 10000` in JSBI arithmetic. -/
def calculateMinimumOut (amount : TokenAmount) (slippageTolerance : Int) : Int :=
  Int.tdiv (amount.raw * (10000 - slippageTolerance)) 10000

/-- `SwapRouter.calculateMaximumIn` (identical in both variants):
`raw * (10000 + slippageTolerance) / 10000` in JSBI arithmetic. -/
def calculateMaximumIn (amount : TokenAmount) (slippageTolerance : Int) : Int :=
  Int.tdiv (amount.raw * (10000 + slippageTolerance)) 10000

/-- The USDC token of the example application (`App.tsx`). -/
def usdcToken : Token :=
  ⟨1, "0x3f65144F387f6545bF4B19a1B39C94231E1c849F", 6, "usdc"⟩

/-- C5: for tolerances inside [0, 10000] and a non-negative raw amount,
`calculateMinimumOut` is exactly `floor(raw * (10000 - t) / 10000)` and
`calculateMaximumIn` is exactly `floor(raw * (10000 + t) / 10000)` in
arbitrary-precision integer arithmetic, and the two documented sample
values hold: `minimumOut(1_000_000, 50) = 995_000` and
`maximumIn(1_000_000, 50) = 1_005_000`. -/
theorem calculateMinimumOut_maximumIn_floor (amount : TokenAmount) (t : Int)
    (hraw : 0 ≤ amount.raw) (ht0 : 0 ≤ t) (ht1 : t ≤ 10000) :
    calculateMinimumOut amount t = Int.fdiv (amount.raw * (10000 - t)) 10000 ∧
    calculateMaximumIn amount t = Int.fdiv (amount.raw * (10000 + t)) 10000 ∧
    calculateMinimumOut ⟨usdcToken, 1000000⟩ 50 = 995000 ∧
    calculateMaximumIn ⟨usdcToken, 1000000⟩ 50 = 1005000 := by
  refine ⟨?_, ?_, by decide, by decide⟩
  · unfold calculateMinimumOut
    rw [Int.fdiv_eq_tdiv (by nlinarith) (by norm_num)]
  · unfold calculateMaximumIn
    rw [Int.fdiv_eq_tdiv (by nlinarith) (by norm_num)]

/-- Witness for C5 at amount 1_000_000 and tolerance 50. -/
theorem calculateMinimumOut_maximumIn_floor_witness :
    calculateMinimumOut ⟨usdcToken, 1000000⟩ 50 =
      Int.fdiv ((1000000 : Int) * (10000 - 50)) 10000 ∧
    calculateMaximumIn ⟨usdcToken, 1000000⟩ 50 =
      Int.fdiv ((1000000 : Int) * (10000 + 50)) 10000 := by
  have h := calculateMinimumOut_maximumIn_floor ⟨usdcToken, 1000000⟩ 50
    (by decide) (by decide) (by decide)
  exact ⟨h.1, h.2.1⟩

/-- C8: the slippage calculations perform no range validation.  At the
out-of-range tolerance 20000 on amount 1_000_000, `calculateMinimumOut`
silently returns the negative bound `-1_000_000` instead of failing, and
`calculateMaximumIn` silently returns the inflated bound `3_000_000`. -/
theorem calculateMinimumOut_out_of_range_silent :
    calculateMinimumOut ⟨usdcToken, 1000000⟩ 20000 = -1000000 ∧
    calculateMinimumOut ⟨usdcToken, 1000000⟩ 20000 < 0 ∧
    calculateMaximumIn ⟨usdcToken, 1000000⟩ 20000 = 3000000 := by
  refine ⟨by decide, by decide, by decide⟩

/-- `fee.toString(16).padStart(6, '0')`: the pool fee as 3 bytes (6 lowercase
hex digits, left-padded with zeros). -/
def feeHex (fee : Nat) : String :=
  ⟨List.replicate (6 - (Nat.toDigits 16 fee).length) '0' ++ Nat.toDigits 16 fee⟩

/-- `token.address.toLowerCase().slice(2)`: the 20 address bytes of a token,
as 40 lowercase hex digits without the `0x` marker. -/
def addrBody (t : Token) : String := strSlice (strLower t.address) 2

/-- The body of the `route.pools.map((pool, i) => ...)` callback inside
`SwapRouter.encodePath`: hop `i` contributes `tokenIn ++ fee`, and the
last hop additionally appends the final token. -/
def encodeHopAt (path : List Token) (pools : List Pool) (i : Nat) : String :=
  let tokenIn := path.getD i defaultToken
  let fee := feeHex ((pools.getD i defaultPool).fee)
  if i = pools.length - 1 then
    addrBody tokenIn ++ fee ++ addrBody (path.getD (i + 1) defaultToken)
  else
    addrBody tokenIn ++ fee

/-- `SwapRouter.encodePath` (path-encoding variant): `'0x' +` the joined
per-hop chunks, iterating the pools by index. -/
def encodePath (route : Route) : String :=
  "0x" ++ String.join ((List.range route.pools.length).map (encodeHopAt route.path route.pools))

/-- The `{ calldata, value }` record returned by `encodeSwapData`. -/
structure SwapCallData where
  calldata : String
  value : String
deriving DecidableEq, Repr

/-- `SwapRouter.encodeSwapData` (path-encoding variant): the calldata is
the encoded path of the trade's route; the value is the raw input amount
when the input token is the native asset, `'0'` otherwise.  It does not
consult `trade.type`. -/
def encodeSwapData (trade : Trade) : SwapCallData :=
  ⟨encodePath trade.route,
   if trade.inputAmount.token.address = ZeroAddress
     then toString trade.inputAmount.raw else "0"⟩

/-- Modelled from the spec: the forward concatenation
`token_0 || fee_0 || token_1 || ... || token_n` of section 4.3, used to
compare the source's index-based encoder against the spec's shape. -/
def specPathConcat : List Token → List Pool → String
  | [t], [] => addrBody t
  | t :: rest, p :: ps => addrBody t ++ feeHex p.fee ++ specPathConcat rest ps
  | _, _ => ""

theorem strJoin_cons (s : String) (l : List String) :
    String.join (s :: l) = s ++ String.join l := by
  apply String.ext
  simp [String.join_eq, String.data_append]

theorem encodeHopAt_succ (t : Token) (rest : List Token) (p q : Pool)
    (qs : List Pool) (i : Nat) :
    encodeHopAt (t :: rest) (p :: q :: qs) (i + 1) = encodeHopAt rest (q :: qs) i := by
  unfold encodeHopAt
  have hc : (i + 1 = (p :: q :: qs).length - 1) ↔ (i = (q :: qs).length - 1) := by
    simp
  simp only [List.getD_cons_succ]
  rw [if_congr hc rfl rfl]

theorem joinHops (pools : List Pool) (path : List Token)
    (hlen : path.length = pools.length + 1) (hne : pools ≠ []) :
    String.join ((List.range pools.length).map (encodeHopAt path pools)) =
      specPathConcat path pools := by
  induction pools generalizing path with
  | nil => exact absurd rfl hne
  | cons p ps ih =>
    match path, hlen with
    | t :: rest, hlen =>
      match ps, rest, hlen with
      | [], [t1], _ =>
        rw [show List.range (List.length [p]) = [0] from rfl, List.map_cons,
          List.map_nil, strJoin_cons]
        simp [String.join, encodeHopAt, specPathConcat, String.append_assoc,
          String.append_empty]
      | q :: qs, t1 :: rest1, hlen =>
        have hlen' : (t1 :: rest1).length = (q :: qs).length + 1 := by
          simpa using hlen
        rw [List.length_cons, List.range_succ_eq_map, List.map_cons, strJoin_cons,
          List.map_map]
        have hmap : List.map (encodeHopAt (t :: t1 :: rest1) (p :: q :: qs) ∘ Nat.succ)
            (List.range (q :: qs).length) =
            List.map (encodeHopAt (t1 :: rest1) (q :: qs)) (List.range (q :: qs).length) := by
          refine List.map_congr_left fun i _ => ?_
          exact encodeHopAt_succ t (t1 :: rest1) p q qs i
        rw [hmap, ih (t1 :: rest1) hlen' (by simp)]
        have h0 : encodeHopAt (t :: t1 :: rest1) (p :: q :: qs) 0 =
            addrBody t ++ feeHex p.fee := by
          unfold encodeHopAt
          have : ¬ (0 = (p :: q :: qs).length - 1) := by simp
          simp [this]
        rw [h0]
        show _ = specPathConcat (t :: t1 :: rest1) (p :: q :: qs)
        rw [show specPathConcat (t :: t1 :: rest1) (p :: q :: qs) =
          addrBody t ++ feeHex p.fee ++ specPathConcat (t1 :: rest1) (q :: qs) from rfl]

/-- The WETH token of the spec's two-hop example route. -/
def wethToken : Token :=
  ⟨1, "0xC02aaA39b223FE8D0A0e5C4F27eAD9083C756Cc2", 18, "weth"⟩

/-- The output TOKEN of the spec's two-hop example route (`App.tsx`). -/
def milkTiaToken : Token :=
  ⟨1, "0xcbb93e854AA4EF5Db51c3b094F28952eF0dC67bE", 18, "milktia"⟩

/-- The USDC/WETH pool at fee tier 500. -/
def poolUsdcWeth : Pool := ⟨usdcToken, wethToken, 500, none, none, none⟩

/-- The WETH/TOKEN pool at fee tier 3000. -/
def poolWethMilkTia : Pool := ⟨wethToken, milkTiaToken, 3000, none, none, none⟩

/-- An inert route used as a `getD` default when unwrapping a
known-successful construction. -/
def defaultRoute : Route := ⟨[], [], defaultToken, defaultToken⟩

/-- The two-hop route USDC -(500)-> WETH -(3000)-> TOKEN. -/
def twoHopRoute : Route :=
  ((mkRoute [poolUsdcWeth, poolWethMilkTia] usdcToken milkTiaToken).toOption).getD defaultRoute

/-- An EXACT_INPUT trade over the two-hop route. -/
def twoHopTradeIn : Trade :=
  ⟨twoHopRoute, .EXACT_INPUT, ⟨usdcToken, 100000⟩, ⟨milkTiaToken, 99000⟩⟩

/-- An EXACT_OUTPUT trade over the two-hop route. -/
def twoHopTradeOut : Trade :=
  ⟨twoHopRoute, .EXACT_OUTPUT, ⟨usdcToken, 100000⟩, ⟨milkTiaToken, 99000⟩⟩

/-- `USDC || 0001f4 || WETH || 000bb8 || TOKEN`: the forward (input-first)
encoding of the example route. -/
def forwardPathHex : String :=
  "0x3f65144f387f6545bf4b19a1b39c94231e1c849f0001f4c02aaa39b223fe8d0a0e5c4f27ead9083c756cc2000bb8cbb93e854aa4ef5db51c3b094f28952ef0dc67be"

/-- `TOKEN || 000bb8 || WETH || 0001f4 || USDC`: the reverse (output-first)
encoding of the example route, which the claim expects for EXACT_OUTPUT. -/
def reversePathHex : String :=
  "0xcbb93e854aa4ef5db51c3b094f28952ef0dc67be000bb8c02aaa39b223fe8d0a0e5c4f27ead9083c756cc20001f43f65144f387f6545bf4b19a1b39c94231e1c849f"

/-- C2 (counterexample): for the documented two-hop route the EXACT_OUTPUT
trade's byte path is encoded forward (USDC, the input token, first) like the
EXACT_INPUT one, not in reverse hop order as the claim states: the produced
calldata equals the forward encoding and differs from the reverse one. -/
theorem encodePath_exact_output_not_reversed :
    (encodeSwapData twoHopTradeOut).calldata = forwardPathHex ∧
    (encodeSwapData twoHopTradeOut).calldata ≠ reversePathHex ∧
    twoHopTradeOut.type = TradeType.EXACT_OUTPUT ∧
    twoHopTradeOut.route.pools.length = 2 := by
  refine ⟨by decide, by decide, rfl, by decide⟩

/-- C2 (amended): the encoded byte path is the forward concatenation
`token_0 || fee_0 (3 bytes) || token_1 || ... || token_n` for EVERY trade
type — `encodeSwapData` derives the calldata from the route alone, so
EXACT_OUTPUT trades get the same forward (input-first) encoding as
EXACT_INPUT trades, and the documented two-hop EXACT_INPUT example equals
`USDC || 0001f4 || WETH || 000bb8 || TOKEN`. -/
theorem encodePath_forward_for_both_types (pools : List Pool) (path : List Token)
    (input output : Token)
    (hlen : path.length = pools.length + 1) (hne : pools ≠ []) :
    encodePath ⟨pools, path, input, output⟩ = "0x" ++ specPathConcat path pools ∧
    (∀ trade : Trade, (encodeSwapData trade).calldata = encodePath trade.route) ∧
    (encodeSwapData twoHopTradeIn).calldata = forwardPathHex ∧
    (encodeSwapData twoHopTradeOut).calldata = forwardPathHex := by
  refine ⟨?_, fun _ => rfl, by decide, by decide⟩
  show "0x" ++ _ = _
  rw [joinHops pools path hlen hne]

/-- Witness for C2's amended theorem at the example route. -/
theorem encodePath_forward_for_both_types_witness :
    encodePath ⟨[poolUsdcWeth, poolWethMilkTia],
        [usdcToken, wethToken, milkTiaToken], usdcToken, milkTiaToken⟩ =
      "0x" ++ specPathConcat [usdcToken, wethToken, milkTiaToken]
        [poolUsdcWeth, poolWethMilkTia] ∧
    (encodeSwapData twoHopTradeIn).calldata = forwardPathHex := by
  have h := encodePath_forward_for_both_types [poolUsdcWeth, poolWethMilkTia]
    [usdcToken, wethToken, milkTiaToken] usdcToken milkTiaToken
    (by decide) (by decide)
  exact ⟨h.1, h.2.2.1⟩

theorem routeStep_ne_nil (input : Token) (tokens : List Token) (p : Pool) :
    routeStep input tokens p ≠ [] := by
  simp [routeStep]

theorem routeStep_length (input : Token) (a : Token) (as : List Token) (p : Pool) :
    (routeStep input (a :: as) p).length = (a :: as).length + 1 := by
  simp [routeStep]

theorem foldl_routeStep_length (input : Token) (pools : List Pool) :
    ∀ tokens : List Token, tokens ≠ [] →
      (pools.foldl (routeStep input) tokens).length = tokens.length + pools.length := by
  induction pools with
  | nil => intro tokens _; simp
  | cons p ps ih =>
    intro tokens h
    rw [List.foldl_cons, ih _ (routeStep_ne_nil input tokens p)]
    match tokens, h with
    | a :: as, _ =>
      rw [routeStep_length input a as p]
      simp only [List.length_cons]
      omega

theorem buildPath_length (pools : List Pool) (input : Token) (h : pools ≠ []) :
    (buildPath pools input).length = pools.length + 1 := by
  match pools, h with
  | p :: ps, _ =>
    unfold buildPath
    rw [List.foldl_cons,
      foldl_routeStep_length input ps (routeStep input [] p) (routeStep_ne_nil input [] p)]
    have h2 : (routeStep input [] p).length = 2 := by simp [routeStep]
    rw [h2]
    simp
    omega

theorem mkRouteIsOkAux (pools : List Pool) (input output : Token) :
    (mkRoute pools input output).isOk = true ↔
      ((buildPath pools input).head?.map Token.address = some input.address ∧
       (buildPath pools input).getLast?.map Token.address = some output.address) := by
  unfold mkRoute
  cases hh : (buildPath pools input).head? with
  | none =>
    cases hl : (buildPath pools input).getLast? with
    | none => simp [Except.isOk, Except.toBool]
    | some b => simp [Except.isOk, Except.toBool]
  | some a =>
    cases hl : (buildPath pools input).getLast? with
    | none => simp [Except.isOk, Except.toBool]
    | some b =>
      by_cases h1 : a.address = input.address
      · by_cases h2 : b.address = output.address
        · simp [h1, h2, Except.isOk, Except.toBool]
        · simp [h1, h2, Except.isOk, Except.toBool]
      · simp [h1, Except.isOk, Except.toBool]

/-- C6 (amended): the `Route` constructor rejects a pool sequence exactly
when the derived path is empty or an endpoint's ADDRESS (compared as an
exact string) differs from the declared input/output token's address.
Interior hop-to-hop connectivity is not checked, so a pool sequence that
does not connect input to output can be accepted when its derived path
happens to end at the right addresses. -/
theorem mkRoute_fails_iff_endpoint_mismatch (pools : List Pool) (input output : Token) :
    (mkRoute pools input output).isOk = true ↔
      ((buildPath pools input).head?.map Token.address = some input.address ∧
       (buildPath pools input).getLast?.map Token.address = some output.address) :=
  mkRouteIsOkAux pools input output

/-- Token A of the broken-link counterexample. -/
def tokA : Token := ⟨1, "0xaaaaaaaaaaaaaaaaaaaaaaaaaaaaaaaaaaaaaaaa", 18, "A"⟩

/-- Token B of the broken-link counterexample. -/
def tokB : Token := ⟨1, "0xbbbbbbbbbbbbbbbbbbbbbbbbbbbbbbbbbbbbbbbb", 18, "B"⟩

/-- Token C of the broken-link counterexample. -/
def tokC : Token := ⟨1, "0xcccccccccccccccccccccccccccccccccccccccc", 18, "C"⟩

/-- Token D of the broken-link counterexample. -/
def tokD : Token := ⟨1, "0xdddddddddddddddddddddddddddddddddddddddd", 18, "D"⟩

/-- A pool sequence whose second pool (C, D) shares no token with the
first pool (A, B): it cannot carry a swap from A anywhere. -/
def brokenPools : List Pool :=
  [⟨tokA, tokB, 500, none, none, none⟩, ⟨tokC, tokD, 3000, none, none, none⟩]

/-- C6 (counterexample): the pool sequence (A,B), (C,D) does not connect
the declared input A to the declared output C — the middle link is broken,
B equals neither C nor D — yet the constructor silently accepts it and
returns the bogus path [A, B, C] instead of failing with RouteMismatch. -/
theorem mkRoute_accepts_broken_link :
    (mkRoute brokenPools tokA tokC).isOk = true ∧
    tokB.equals tokC = false ∧
    tokB.equals tokD = false ∧
    ((mkRoute brokenPools tokA tokC).toOption.getD defaultRoute).path =
      [tokA, tokB, tokC] := by
  refine ⟨by decide, by decide, by decide, by decide⟩


theorem mkRoute_ok_elim (pools : List Pool) (input output : Token) (r : Route) :
    mkRoute pools input output = .ok r →
    r = ⟨pools, buildPath pools input, input, output⟩ := by
  unfold mkRoute
  cases hh : (buildPath pools input).head? with
  | none =>
    cases hl : (buildPath pools input).getLast? with
    | none => intro h; exact absurd h (by simp)
    | some b => intro h; exact absurd h (by simp)
  | some a =>
    cases hl : (buildPath pools input).getLast? with
    | none => intro h; exact absurd h (by simp)
    | some b =>
      intro h
      replace h : (if a.address ≠ input.address then
          Except.error "First token in path must match input token"
        else if b.address ≠ output.address then
          Except.error "Last token in path must match output token"
        else
          Except.ok (⟨pools, buildPath pools input, input, output⟩ : Route)) =
          Except.ok r := h
      split_ifs at h with h1 h2
      injection h with h'
      exact h'.symm

/-- C7 (amended): every successfully constructed route satisfies
`path.length = pools.length + 1` and its endpoint tokens carry exactly the
declared input/output ADDRESS strings (an exact string match, hence in
particular case-insensitively equal).  Full token equality — same chainId
and case-insensitive address — is NOT guaranteed, because the constructor
compares only address strings; see the counterexample. -/
theorem route_invariants (pools : List Pool) (input output : Token) (r : Route)
    (h : mkRoute pools input output = .ok r) :
    r.pools = pools ∧
    r.path.length = r.pools.length + 1 ∧
    r.path.head?.map Token.address = some input.address ∧
    r.path.getLast?.map Token.address = some output.address := by
  have hr := mkRoute_ok_elim pools input output r h
  have hok : (mkRoute pools input output).isOk = true := by
    rw [h]; rfl
  have hends := (mkRouteIsOkAux pools input output).mp hok
  have hne : pools ≠ [] := by
    intro hnil
    subst hnil
    simp [buildPath] at hends
  subst hr
  exact ⟨rfl, buildPath_length pools input hne, hends.1, hends.2⟩

/-- The single-hop USDC/WETH route used as a witness input. -/
def oneHopRoute : Route :=
  ⟨[poolUsdcWeth], [usdcToken, wethToken], usdcToken, wethToken⟩

/-- Witness for C7's amended theorem at the single-pool USDC/WETH route. -/
theorem route_invariants_witness :
    oneHopRoute.pools = [poolUsdcWeth] ∧
    oneHopRoute.path.length = oneHopRoute.pools.length + 1 ∧
    oneHopRoute.path.head?.map Token.address = some usdcToken.address ∧
    oneHopRoute.path.getLast?.map Token.address = some wethToken.address :=
  route_invariants [poolUsdcWeth] usdcToken wethToken oneHopRoute rfl

/-- A token sharing the counterexample address but living on chainId 5. -/
def chain5Token : Token := ⟨5, "0xaaaaaaaaaaaaaaaaaaaaaaaaaaaaaaaaaaaaaaaa", 18, "A5"⟩

/-- The declared input token of the chainId counterexample, on chainId 2. -/
def chain2Token : Token := ⟨2, "0xaaaaaaaaaaaaaaaaaaaaaaaaaaaaaaaaaaaaaaaa", 6, "A2"⟩

/-- The other side of the chainId-counterexample pool. -/
def otherSideToken : Token := ⟨1, "0xbbbbbbbbbbbbbbbbbbbbbbbbbbbbbbbbbbbbbbbb", 18, "B"⟩

/-- A pool whose token1 carries the input's address but a foreign chainId. -/
def crossChainPool : Pool := ⟨otherSideToken, chain5Token, 500, none, none, none⟩

/-- C7 (counterexample): Route construction succeeds although `path.first`
is not equal to the declared input token in the claim's sense — the path's
first token lives on chainId 5 while the declared input lives on chainId 2;
only their address strings coincide. -/
theorem route_first_not_token_equal :
    (mkRoute [crossChainPool] chain2Token otherSideToken).isOk = true ∧
    (((mkRoute [crossChainPool] chain2Token otherSideToken).toOption.getD
        defaultRoute).path.getD 0 defaultToken).equals chain2Token = false := by
  refine ⟨by decide, by decide⟩

/-- The token record inside a quoted hop (`V3PoolInRoute.tokenIn/tokenOut`). -/
structure QuoteTokenInfo where
  address : String
  chainId : Int
  symbol : String
  decimals : Nat
deriving DecidableEq, Repr

/-- One hop of a quoted route (`V3PoolInRoute`); `fee` and `tickCurrent`
are modelled after the `parseInt` the factory immediately applies, and the
optional `amountIn`/`amountOut`/`address` fields, which the engine never
reads, are omitted. -/
structure V3PoolInRoute where
  tokenIn : QuoteTokenInfo
  tokenOut : QuoteTokenInfo
  sqrtRatioX96 : String
  liquidity : String
  tickCurrent : Int
  fee : Nat
deriving DecidableEq, Repr

/-- The quote structure (`GetQuoteResult`), restricted to the fields the
trade factories read: the requested `amount`, the counter-value `quote`
(both modelled after `JSBI.BigInt` of the decimal strings), and the
candidate routes. -/
structure GetQuoteResult where
  amount : Int
  quote : Int
  route : List (List V3PoolInRoute)
deriving DecidableEq, Repr

/-- The `"exactIn" | "exactOut"` string union taken by the factories. -/
inductive QuoteType where
  | exactIn
  | exactOut
deriving DecidableEq, Repr

/-- The `quoteResult.route[0].map(...)` pool conversion shared by both
factories. -/
def poolsOfQuoteRoute (hops : List V3PoolInRoute) : List Pool :=
  hops.map fun pr =>
    ⟨⟨pr.tokenIn.chainId, pr.tokenIn.address, pr.tokenIn.decimals, pr.tokenIn.symbol⟩,
     ⟨pr.tokenOut.chainId, pr.tokenOut.address, pr.tokenOut.decimals, pr.tokenOut.symbol⟩,
     pr.fee, some pr.sqrtRatioX96, some pr.liquidity, some pr.tickCurrent⟩

/-- The `Trade` constructor of the path-encoding variant: for EXACT_INPUT
it stores the given amount as `inputAmount` and fills `outputAmount` with
`new TokenAmount(route.output, amount.raw)` — a placeholder copy flagged
in the source by the comment "In real implementation calculate based on
route"; for EXACT_OUTPUT, symmetrically, with `route.input`. -/
def VariantPath.mkTrade (route : Route) (amount : TokenAmount) (type : TradeType) : Trade :=
  match type with
  | .EXACT_INPUT => ⟨route, type, amount, ⟨route.output, amount.raw⟩⟩
  | .EXACT_OUTPUT => ⟨route, type, ⟨route.input, amount.raw⟩, amount⟩

/-- `createTradeFromQuote` of the path-encoding variant: converts
`route[0]` to pools, takes input = first pool's token0 and output = last
pool's token1, builds the Route, then constructs the Trade from the single
quoted amount (`amount` for exactIn, `quote` for exactOut) through the
placeholder-filling constructor. -/
def VariantPath.createTradeFromQuote (q : GetQuoteResult) (type : QuoteType) :
    Except String Trade :=
  match q.route.head? with
  | none => .error "TypeError: cannot read properties of undefined (route[0])"
  | some hops =>
    match (poolsOfQuoteRoute hops).head?, (poolsOfQuoteRoute hops).getLast? with
    | some firstPool, some lastPool =>
      (mkRoute (poolsOfQuoteRoute hops) firstPool.token0 lastPool.token1).map fun route =>
        VariantPath.mkTrade route
          ⟨(if type = .exactIn then firstPool.token0 else lastPool.token1),
           (if type = .exactIn then q.amount else q.quote)⟩
          (if type = .exactIn then .EXACT_INPUT else .EXACT_OUTPUT)
    | _, _ => .error "TypeError: cannot read properties of undefined (routePools[0])"

/-- `createTradeFromQuote` of the single-hop variant: same route
construction, but both amounts come from the quote — for exactIn,
inputAmount = `amount` and outputAmount = `quote`; for exactOut these two
assignments are swapped. -/
def VariantSingle.createTradeFromQuote (q : GetQuoteResult) (type : QuoteType) :
    Except String Trade :=
  match q.route.head? with
  | none => .error "TypeError: cannot read properties of undefined (route[0])"
  | some hops =>
    match (poolsOfQuoteRoute hops).head?, (poolsOfQuoteRoute hops).getLast? with
    | some firstPool, some lastPool =>
      (mkRoute (poolsOfQuoteRoute hops) firstPool.token0 lastPool.token1).map fun route =>
        match type with
        | .exactIn =>
          ⟨route, .EXACT_INPUT, ⟨firstPool.token0, q.amount⟩, ⟨lastPool.token1, q.quote⟩⟩
        | .exactOut =>
          ⟨route, .EXACT_OUTPUT, ⟨firstPool.token0, q.quote⟩, ⟨lastPool.token1, q.amount⟩⟩
    | _, _ => .error "TypeError: cannot read properties of undefined (routePools[0])"

/-- A single quoted USDC -> WETH hop at fee tier 500. -/
def quoteHopUsdcWeth : V3PoolInRoute :=
  ⟨⟨"0x3f65144F387f6545bF4B19a1B39C94231E1c849F", 1, "usdc", 6⟩,
   ⟨"0xC02aaA39b223FE8D0A0e5C4F27eAD9083C756Cc2", 1, "weth", 18⟩,
   "79228162514264337593543950336", "12345678", 0, 500⟩

/-- An exactIn quote asking to swap 100000 with counter-value 99000. -/
def exampleQuote : GetQuoteResult := ⟨100000, 99000, [[quoteHopUsdcWeth]]⟩

/-- C3: evaluation at the failing input.  On the quote with requested
amount 100000 and quoted counter-value 99000, the path-encoding variant's
factory produces outputAmount.raw = 100000 for exactIn — a placeholder
copy of the input amount, not the quoted counter-value 99000 — and
(99000, 99000) for exactOut, where the claim requires the output to be the
requested amount 100000.  The single-hop variant's factory follows the
claim: (input, output) = (amount, quote) for exactIn and the swapped pair
for exactOut. -/
theorem createTradeFromQuote_placeholder_at_failing_input :
    (VariantPath.createTradeFromQuote exampleQuote .exactIn).toOption.map
        (fun t => (t.inputAmount.raw, t.outputAmount.raw)) = some (100000, 100000) ∧
    exampleQuote.quote = 99000 ∧
    (VariantPath.createTradeFromQuote exampleQuote .exactOut).toOption.map
        (fun t => (t.inputAmount.raw, t.outputAmount.raw)) = some (99000, 99000) ∧
    exampleQuote.amount = 100000 ∧
    (VariantSingle.createTradeFromQuote exampleQuote .exactIn).toOption.map
        (fun t => (t.inputAmount.raw, t.outputAmount.raw)) = some (100000, 99000) ∧
    (VariantSingle.createTradeFromQuote exampleQuote .exactOut).toOption.map
        (fun t => (t.inputAmount.raw, t.outputAmount.raw)) = some (99000, 100000) := by
  refine ⟨by decide, rfl, by decide, rfl, by decide, by decide⟩

/-- Parameters of an `exactInput` call (path-encoding variant; the JS
object also carries `deadline`, although the declared ABI tuple lacks it).
The amount fields hold the `.toString()` images the source produces. -/
structure ExactInputParams where
  path : String
  recipient : String
  deadline : Int
  amountIn : String
  amountOutMinimum : String
deriving DecidableEq, Repr

/-- Parameters of an `exactInputSingle` call (single-hop variant). -/
structure ExactInputSingleParams where
  tokenIn : String
  tokenOut : String
  fee : Nat
  recipient : String
  amountIn : String
  amountOutMinimum : String
  sqrtPriceLimitX96 : Int
deriving DecidableEq, Repr

/-- Parameters of an `exactOutputSingle` call (single-hop variant). -/
structure ExactOutputSingleParams where
  tokenIn : String
  tokenOut : String
  fee : Nat
  recipient : String
  amountOut : String
  amountInMaximum : String
  sqrtPriceLimitX96 : Int
deriving DecidableEq, Repr

/-- The router-call shapes the two `executeSwap` implementations build. -/
inductive SwapCall where
  | exactInput (params : ExactInputParams)
  | exactInputSingle (params : ExactInputSingleParams)
  | exactOutputSingle (params : ExactOutputSingleParams)
deriving DecidableEq, Repr

/-- Whether a call uses the protocol's single-hop shape. -/
def SwapCall.isSingleHopShape : SwapCall → Bool
  | .exactInputSingle _ => true
  | .exactOutputSingle _ => true
  | .exactInput _ => false

/-- One observable network-bound step of a swap execution. -/
inductive SwapAction where
  | allowanceRead (token owner spender : String)
  | approve (token spender : String) (amount : Int)
  | approveWait
  | staticCall (call : SwapCall) (value : String)
  | estimateGas (call : SwapCall) (value : String)
  | send (call : SwapCall) (gasLimit : Int) (value : String)
deriving DecidableEq, Repr

/-- What the chain answers at each suspension point of one execution. -/
structure ExecEnv where
  signerAddress : String
  allowance : Int
  staticCallError : Option String
  estimateGasResult : Except String Int
  sendError : Option String
deriving Repr

/-- The router call (if any) an action performs. -/
def SwapAction.callOf : SwapAction → Option SwapCall
  | .staticCall c _ => some c
  | .estimateGas c _ => some c
  | .send c _ _ => some c
  | _ => none

/-- All router calls of a trace, in order. -/
def callsOf (tr : List SwapAction) : List SwapCall := tr.filterMap SwapAction.callOf

/-- Whether an action is an ERC-20 `approve` submission. -/
def SwapAction.isApprove : SwapAction → Bool
  | .approve .. => true
  | _ => false

/-- The approval submissions of a trace, in order. -/
def approvalsOf (tr : List SwapAction) : List SwapAction := tr.filter SwapAction.isApprove

/-- Whether an action is a gas-estimation call. -/
def SwapAction.isEstimate : SwapAction → Bool
  | .estimateGas .. => true
  | _ => false

/-- Whether an action submits the real swap transaction. -/
def SwapAction.isSend : SwapAction → Bool
  | .send .. => true
  | _ => false

/-- `SwapRouter.approveTokenIfNeeded` (path-encoding variant): return
immediately for the native token; otherwise read the allowance granted to
the router and, when it is below the required amount, submit an `approve`
for `MaxUint256` and await its confirmation. -/
def approveTokenIfNeeded (routerAddress : String) (token : Token) (amount : Int)
    (env : ExecEnv) : List SwapAction :=
  if token.address = ZeroAddress then []
  else
    .allowanceRead token.address env.signerAddress routerAddress ::
    (if env.allowance < amount then
      [.approve token.address routerAddress MaxUint256, .approveWait]
     else [])

/-- The parameter object the path-encoding `executeSwap` builds for its
(unconditional) `exactInput` call. -/
def VariantPath.swapParams (trade : Trade) (options : SwapOptions) : ExactInputParams :=
  ⟨(encodeSwapData trade).calldata, options.recipient, options.deadline,
   toString trade.inputAmount.raw,
   toString (calculateMinimumOut trade.outputAmount options.slippageTolerance)⟩

/-- The static-call / estimate / submit ladder of the path-encoding
`executeSwap`: a revert of the dry run aborts before estimation, an
estimation failure aborts before submission, and the submitted call uses
gas limit `estimate * 120 / 100`. -/
def VariantPath.swapPhase (trade : Trade) (options : SwapOptions) (env : ExecEnv) :
    List SwapAction × Except String Unit :=
  match env.staticCallError with
  | some e =>
    ([.staticCall (.exactInput (VariantPath.swapParams trade options))
        (encodeSwapData trade).value], .error e)
  | none =>
    match env.estimateGasResult with
    | .error e =>
      ([.staticCall (.exactInput (VariantPath.swapParams trade options))
          (encodeSwapData trade).value,
        .estimateGas (.exactInput (VariantPath.swapParams trade options))
          (encodeSwapData trade).value], .error e)
    | .ok gasLimit =>
      match env.sendError with
      | some e =>
        ([.staticCall (.exactInput (VariantPath.swapParams trade options))
            (encodeSwapData trade).value,
          .estimateGas (.exactInput (VariantPath.swapParams trade options))
            (encodeSwapData trade).value,
          .send (.exactInput (VariantPath.swapParams trade options))
            (Int.tdiv (gasLimit * 120) 100) (encodeSwapData trade).value], .error e)
      | none =>
        ([.staticCall (.exactInput (VariantPath.swapParams trade options))
            (encodeSwapData trade).value,
          .estimateGas (.exactInput (VariantPath.swapParams trade options))
            (encodeSwapData trade).value,
          .send (.exactInput (VariantPath.swapParams trade options))
            (Int.tdiv (gasLimit * 120) 100) (encodeSwapData trade).value], .ok ())

/-- `SwapRouter.executeSwap` (path-encoding variant): encode, approve if
needed (awaited first), then the static-call / estimate / submit ladder —
always through the `exactInput` shape, whatever the trade type or the
number of pools. -/
def VariantPath.executeSwap (routerAddress : String) (trade : Trade)
    (options : SwapOptions) (env : ExecEnv) : List SwapAction × Except String Unit :=
  (approveTokenIfNeeded routerAddress trade.inputAmount.token trade.inputAmount.raw env ++
     (VariantPath.swapPhase trade options env).1,
   (VariantPath.swapPhase trade options env).2)

/-- The `value` field both variants attach to the router calls: the raw
input amount for a native-asset input token, `'0'` otherwise. -/
def swapCallValue (trade : Trade) : String :=
  if trade.inputAmount.token.address = ZeroAddress
    then toString trade.inputAmount.raw else "0"

/-- The call the single-hop `executeSwap` builds: `exactInputSingle` for
EXACT_INPUT and `exactOutputSingle` for EXACT_OUTPUT, always from
`path[0]`, `path[1]` and `pools[0].fee` — the first hop only. -/
def VariantSingle.swapCall (trade : Trade) (options : SwapOptions) : SwapCall :=
  match trade.type with
  | .EXACT_INPUT =>
    .exactInputSingle
      ⟨(trade.route.path.getD 0 defaultToken).address,
       (trade.route.path.getD 1 defaultToken).address,
       (trade.route.pools.getD 0 defaultPool).fee,
       options.recipient,
       toString trade.inputAmount.raw,
       toString (calculateMinimumOut trade.outputAmount options.slippageTolerance),
       0⟩
  | .EXACT_OUTPUT =>
    .exactOutputSingle
      ⟨(trade.route.path.getD 0 defaultToken).address,
       (trade.route.path.getD 1 defaultToken).address,
       (trade.route.pools.getD 0 defaultPool).fee,
       options.recipient,
       toString trade.outputAmount.raw,
       toString (calculateMaximumIn trade.inputAmount options.slippageTolerance),
       0⟩

/-- `SwapRouter.executeSwap` (single-hop variant): no approval step; the
static-call / estimate / submit ladder on the single-hop call. -/
def VariantSingle.executeSwap (routerAddress : String) (trade : Trade)
    (options : SwapOptions) (env : ExecEnv) : List SwapAction × Except String Unit :=
  match env.staticCallError with
  | some e =>
    ([.staticCall (VariantSingle.swapCall trade options) (swapCallValue trade)], .error e)
  | none =>
    match env.estimateGasResult with
    | .error e =>
      ([.staticCall (VariantSingle.swapCall trade options) (swapCallValue trade),
        .estimateGas (VariantSingle.swapCall trade options) (swapCallValue trade)], .error e)
    | .ok gasLimit =>
      match env.sendError with
      | some e =>
        ([.staticCall (VariantSingle.swapCall trade options) (swapCallValue trade),
          .estimateGas (VariantSingle.swapCall trade options) (swapCallValue trade),
          .send (VariantSingle.swapCall trade options)
            (Int.tdiv (gasLimit * 120) 100) (swapCallValue trade)], .error e)
      | none =>
        ([.staticCall (VariantSingle.swapCall trade options) (swapCallValue trade),
          .estimateGas (VariantSingle.swapCall trade options) (swapCallValue trade),
          .send (VariantSingle.swapCall trade options)
            (Int.tdiv (gasLimit * 120) 100) (swapCallValue trade)], .ok ())

theorem callsOf_append (a b : List SwapAction) :
    callsOf (a ++ b) = callsOf a ++ callsOf b :=
  List.filterMap_append a b SwapAction.callOf

theorem approvalsOf_append (a b : List SwapAction) :
    approvalsOf (a ++ b) = approvalsOf a ++ approvalsOf b :=
  List.filter_append a b

theorem approveActions_callsOf (r : String) (t : Token) (a : Int) (env : ExecEnv) :
    callsOf (approveTokenIfNeeded r t a env) = [] := by
  unfold approveTokenIfNeeded
  split_ifs <;> simp [callsOf, SwapAction.callOf]

theorem approveActions_no_estimate (r : String) (t : Token) (a : Int) (env : ExecEnv) :
    (approveTokenIfNeeded r t a env).filter SwapAction.isEstimate = [] := by
  unfold approveTokenIfNeeded
  split_ifs <;> simp [SwapAction.isEstimate]

theorem approveActions_no_send (r : String) (t : Token) (a : Int) (env : ExecEnv) :
    (approveTokenIfNeeded r t a env).filter SwapAction.isSend = [] := by
  unfold approveTokenIfNeeded
  split_ifs <;> simp [SwapAction.isSend]

theorem swapPhase_approvals (trade : Trade) (options : SwapOptions) (env : ExecEnv) :
    approvalsOf (VariantPath.swapPhase trade options env).1 = [] := by
  unfold VariantPath.swapPhase
  cases env.staticCallError with
  | some e => simp [approvalsOf, SwapAction.isApprove]
  | none =>
    cases env.estimateGasResult with
    | error e => simp [approvalsOf, SwapAction.isApprove]
    | ok g =>
      cases env.sendError with
      | some e => simp [approvalsOf, SwapAction.isApprove]
      | none => simp [approvalsOf, SwapAction.isApprove]

theorem swapPhase_calls (trade : Trade) (options : SwapOptions) (env : ExecEnv) :
    ∀ c ∈ callsOf (VariantPath.swapPhase trade options env).1,
      c = SwapCall.exactInput (VariantPath.swapParams trade options) := by
  unfold VariantPath.swapPhase
  cases env.staticCallError with
  | some e => intro c hc; simp [callsOf, SwapAction.callOf] at hc; exact hc
  | none =>
    cases env.estimateGasResult with
    | error e => intro c hc; simp [callsOf, SwapAction.callOf] at hc; exact hc
    | ok g =>
      cases env.sendError with
      | some e => intro c hc; simp [callsOf, SwapAction.callOf] at hc; exact hc
      | none => intro c hc; simp [callsOf, SwapAction.callOf] at hc; exact hc

theorem singleSwap_calls (routerAddress : String) (trade : Trade) (options : SwapOptions)
    (env : ExecEnv) :
    ∀ c ∈ callsOf (VariantSingle.executeSwap routerAddress trade options env).1,
      c = VariantSingle.swapCall trade options := by
  unfold VariantSingle.executeSwap
  cases env.staticCallError with
  | some e => intro c hc; simp [callsOf, SwapAction.callOf] at hc; exact hc
  | none =>
    cases env.estimateGasResult with
    | error e => intro c hc; simp [callsOf, SwapAction.callOf] at hc; exact hc
    | ok g =>
      cases env.sendError with
      | some e => intro c hc; simp [callsOf, SwapAction.callOf] at hc; exact hc
      | none => intro c hc; simp [callsOf, SwapAction.callOf] at hc; exact hc

/-- C1 (amended): `executeSwap` never selects the call shape from the pool
count.  In every execution, the path-encoding variant's router calls are
all `exactInput` carrying the encoded path (the multi-hop shape), whatever
the trade type and even for single-pool routes, and the single-hop
variant's router calls are all `exactInputSingle` (for EXACT_INPUT) or
`exactOutputSingle` (for EXACT_OUTPUT) carrying the first hop's
(path[0], path[1], pools[0].fee) triple, even for multi-pool routes. -/
theorem executeSwap_shape_ignores_hop_count (routerAddress : String) (trade : Trade)
    (options : SwapOptions) (env : ExecEnv) :
    (∀ c ∈ callsOf (VariantPath.executeSwap routerAddress trade options env).1,
        c = SwapCall.exactInput (VariantPath.swapParams trade options)) ∧
    (∀ c ∈ callsOf (VariantSingle.executeSwap routerAddress trade options env).1,
        c = VariantSingle.swapCall trade options) ∧
    (trade.type = TradeType.EXACT_INPUT →
        VariantSingle.swapCall trade options = SwapCall.exactInputSingle
          ⟨(trade.route.path.getD 0 defaultToken).address,
           (trade.route.path.getD 1 defaultToken).address,
           (trade.route.pools.getD 0 defaultPool).fee,
           options.recipient,
           toString trade.inputAmount.raw,
           toString (calculateMinimumOut trade.outputAmount options.slippageTolerance),
           0⟩) ∧
    (trade.type = TradeType.EXACT_OUTPUT →
        VariantSingle.swapCall trade options = SwapCall.exactOutputSingle
          ⟨(trade.route.path.getD 0 defaultToken).address,
           (trade.route.path.getD 1 defaultToken).address,
           (trade.route.pools.getD 0 defaultPool).fee,
           options.recipient,
           toString trade.outputAmount.raw,
           toString (calculateMaximumIn trade.inputAmount options.slippageTolerance),
           0⟩) ∧
    (SwapCall.exactInput (VariantPath.swapParams trade options)).isSingleHopShape = false := by
  refine ⟨?_, singleSwap_calls routerAddress trade options env, ?_, ?_, rfl⟩
  · intro c hc
    rw [show (VariantPath.executeSwap routerAddress trade options env).1 =
        approveTokenIfNeeded routerAddress trade.inputAmount.token trade.inputAmount.raw env ++
          (VariantPath.swapPhase trade options env).1 from rfl,
      callsOf_append, approveActions_callsOf, List.nil_append] at hc
    exact swapPhase_calls trade options env c hc
  · intro ht
    simp [VariantSingle.swapCall, ht]
  · intro ht
    simp [VariantSingle.swapCall, ht]

/-- The router contract address the example application uses. -/
def routerAddressEx : String := "0x29bBaFf21695fA41e446c4f37c07C699d9f08021"

/-- The recipient address the example application uses. -/
def recipientEx : String := "0xb0E31D878F49Ec0403A25944d6B1aE1bf05D17E1"

/-- The example options: 50 bp slippage tolerance, a fixed deadline. -/
def optionsEx : SwapOptions := ⟨recipientEx, 50, 1731000000⟩

/-- An environment in which every chain interaction succeeds and the
standing allowance is ample. -/
def okEnv : ExecEnv := ⟨recipientEx, 10 ^ 12, none, .ok 210000, none⟩

/-- An environment with zero standing allowance. -/
def lowAllowanceEnv : ExecEnv := ⟨recipientEx, 0, none, .ok 210000, none⟩

/-- An environment whose dry-run static call reverts. -/
def revertEnv : ExecEnv := ⟨recipientEx, 10 ^ 12, some "execution reverted", .ok 210000, none⟩

/-- A single-pool EXACT_OUTPUT trade: 1 USDC committed in, 0.0005 WETH out. -/
def exactOutUsdcTrade : Trade :=
  ⟨oneHopRoute, .EXACT_OUTPUT, ⟨usdcToken, 1000000⟩, ⟨wethToken, 500000000000000⟩⟩

/-- An environment whose standing allowance is exactly the committed input
amount of `exactOutUsdcTrade` — below `maximumIn` at 50 bp. -/
def tightAllowanceEnv : ExecEnv := ⟨recipientEx, 1000000, none, .ok 210000, none⟩

/-- C1 (counterexample): dispatch does not follow the pool count.  The
single-hop variant issues single-hop-shaped calls for a trade whose route
has TWO pools, and the path-encoding variant issues multi-hop-shaped
`exactInput` calls for a trade whose route has exactly ONE pool — both
contradicting "single-hop shape iff exactly one pool". -/
theorem executeSwap_shape_ignores_hop_count_cex :
    twoHopTradeIn.route.pools.length = 2 ∧
    callsOf (VariantSingle.executeSwap routerAddressEx twoHopTradeIn optionsEx okEnv).1 ≠ [] ∧
    (callsOf (VariantSingle.executeSwap routerAddressEx twoHopTradeIn optionsEx okEnv).1).all
      SwapCall.isSingleHopShape = true ∧
    exactOutUsdcTrade.route.pools.length = 1 ∧
    callsOf (VariantPath.executeSwap routerAddressEx exactOutUsdcTrade optionsEx okEnv).1 ≠ [] ∧
    (callsOf (VariantPath.executeSwap routerAddressEx exactOutUsdcTrade optionsEx okEnv).1).all
      (fun c => ! c.isSingleHopShape) = true := by
  refine ⟨by decide, by decide, by decide, by decide, by decide, by decide⟩

/-- Witness for C1's amended theorem: the single-hop variant's call for
the two-pool EXACT_INPUT example trade is `exactInputSingle` built from
the first hop's triple. -/
theorem executeSwap_shape_ignores_hop_count_witness :
    twoHopTradeIn.type = TradeType.EXACT_INPUT ∧
    VariantSingle.swapCall twoHopTradeIn optionsEx = SwapCall.exactInputSingle
      ⟨(twoHopTradeIn.route.path.getD 0 defaultToken).address,
       (twoHopTradeIn.route.path.getD 1 defaultToken).address,
       (twoHopTradeIn.route.pools.getD 0 defaultPool).fee,
       optionsEx.recipient,
       toString twoHopTradeIn.inputAmount.raw,
       toString (calculateMinimumOut twoHopTradeIn.outputAmount optionsEx.slippageTolerance),
       0⟩ :=
  ⟨rfl, (executeSwap_shape_ignores_hop_count routerAddressEx twoHopTradeIn optionsEx
    okEnv).2.2.1 rfl⟩

/-- C4 (amended): the approval step of the path-encoding `executeSwap`
uses the trade's committed input amount as the required amount for BOTH
trade types (it never consults `maximumIn`): no approval for a
native-asset input; no approval when the standing allowance is at least
`inputAmount.raw`; otherwise exactly one approval — an `allowanceRead`,
one `approve`, and its awaited confirmation — emitted before any router
call of the swap phase, which itself contains no approvals. -/
theorem approval_policy (routerAddress : String) (trade : Trade)
    (options : SwapOptions) (env : ExecEnv) :
    (trade.inputAmount.token.address = ZeroAddress →
      approvalsOf (VariantPath.executeSwap routerAddress trade options env).1 = []) ∧
    (trade.inputAmount.token.address ≠ ZeroAddress →
      trade.inputAmount.raw ≤ env.allowance →
      approvalsOf (VariantPath.executeSwap routerAddress trade options env).1 = []) ∧
    (trade.inputAmount.token.address ≠ ZeroAddress →
      env.allowance < trade.inputAmount.raw →
      (VariantPath.executeSwap routerAddress trade options env).1 =
        SwapAction.allowanceRead trade.inputAmount.token.address env.signerAddress
          routerAddress ::
        SwapAction.approve trade.inputAmount.token.address routerAddress MaxUint256 ::
        SwapAction.approveWait ::
        (VariantPath.swapPhase trade options env).1 ∧
      approvalsOf (VariantPath.swapPhase trade options env).1 = []) := by
  refine ⟨?_, ?_, ?_⟩
  · intro hz
    have h1 : approveTokenIfNeeded routerAddress trade.inputAmount.token
        trade.inputAmount.raw env = [] := by
      unfold approveTokenIfNeeded
      rw [if_pos hz]
    show approvalsOf (approveTokenIfNeeded routerAddress trade.inputAmount.token
      trade.inputAmount.raw env ++ (VariantPath.swapPhase trade options env).1) = []
    rw [h1, List.nil_append, swapPhase_approvals]
  · intro hz hle
    have h1 : approveTokenIfNeeded routerAddress trade.inputAmount.token
        trade.inputAmount.raw env =
        [.allowanceRead trade.inputAmount.token.address env.signerAddress routerAddress] := by
      unfold approveTokenIfNeeded
      rw [if_neg hz, if_neg (not_lt.mpr hle)]
    show approvalsOf (approveTokenIfNeeded routerAddress trade.inputAmount.token
      trade.inputAmount.raw env ++ (VariantPath.swapPhase trade options env).1) = []
    rw [h1, approvalsOf_append, swapPhase_approvals]
    simp [approvalsOf, SwapAction.isApprove]
  · intro hz hlt
    have h1 : approveTokenIfNeeded routerAddress trade.inputAmount.token
        trade.inputAmount.raw env =
        [.allowanceRead trade.inputAmount.token.address env.signerAddress routerAddress,
         .approve trade.inputAmount.token.address routerAddress MaxUint256,
         .approveWait] := by
      unfold approveTokenIfNeeded
      rw [if_neg hz, if_pos hlt]
    refine ⟨?_, swapPhase_approvals trade options env⟩
    show approveTokenIfNeeded routerAddress trade.inputAmount.token
      trade.inputAmount.raw env ++ (VariantPath.swapPhase trade options env).1 = _
    rw [h1]
    rfl

/-- Witness for C4's amended theorem: the two-pool example trade with an
ERC-20 input token and zero standing allowance gets exactly the
allowance-read / approve / await prefix before the swap phase. -/
theorem approval_policy_witness :
    twoHopTradeIn.inputAmount.token.address ≠ ZeroAddress ∧
    lowAllowanceEnv.allowance < twoHopTradeIn.inputAmount.raw ∧
    ((VariantPath.executeSwap routerAddressEx twoHopTradeIn optionsEx lowAllowanceEnv).1 =
      SwapAction.allowanceRead twoHopTradeIn.inputAmount.token.address
        lowAllowanceEnv.signerAddress routerAddressEx ::
      SwapAction.approve twoHopTradeIn.inputAmount.token.address routerAddressEx
        MaxUint256 ::
      SwapAction.approveWait ::
      (VariantPath.swapPhase twoHopTradeIn optionsEx lowAllowanceEnv).1 ∧
     approvalsOf (VariantPath.swapPhase twoHopTradeIn optionsEx lowAllowanceEnv).1 = []) :=
  ⟨by decide, by decide,
   (approval_policy routerAddressEx twoHopTradeIn optionsEx lowAllowanceEnv).2.2
     (by decide) (by decide)⟩

/-- C4 (counterexample): for the single-pool EXACT_OUTPUT trade committing
1 USDC in at 50 bp tolerance, the claim's required amount is
`maximumIn(1_000_000, 50) = 1_005_000`; with a standing allowance of
exactly 1_000_000 (insufficient under the claim) the code emits NO
approval transaction, because it compares the allowance against the
committed input amount, not against `maximumIn`. -/
theorem approval_ignores_maximumIn_cex :
    calculateMaximumIn exactOutUsdcTrade.inputAmount optionsEx.slippageTolerance = 1005000 ∧
    tightAllowanceEnv.allowance = 1000000 ∧
    tightAllowanceEnv.allowance <
      calculateMaximumIn exactOutUsdcTrade.inputAmount optionsEx.slippageTolerance ∧
    exactOutUsdcTrade.type = TradeType.EXACT_OUTPUT ∧
    exactOutUsdcTrade.inputAmount.token.address ≠ ZeroAddress ∧
    approvalsOf (VariantPath.executeSwap routerAddressEx exactOutUsdcTrade optionsEx
      tightAllowanceEnv).1 = [] := by
  refine ⟨by decide, rfl, by decide, rfl, by decide, by decide⟩

/-- C9: when the dry-run static call reverts, both `executeSwap`
implementations surface the error as-is and their traces contain no
gas-estimation and no submission action — the real swap is never sent. -/
theorem simulation_revert_blocks_swap (routerAddress : String) (trade : Trade)
    (options : SwapOptions) (env : ExecEnv) (e : String)
    (h : env.staticCallError = some e) :
    (VariantPath.executeSwap routerAddress trade options env).2 = .error e ∧
    (VariantPath.executeSwap routerAddress trade options env).1.filter
      SwapAction.isEstimate = [] ∧
    (VariantPath.executeSwap routerAddress trade options env).1.filter
      SwapAction.isSend = [] ∧
    (VariantSingle.executeSwap routerAddress trade options env).2 = .error e ∧
    (VariantSingle.executeSwap routerAddress trade options env).1.filter
      SwapAction.isEstimate = [] ∧
    (VariantSingle.executeSwap routerAddress trade options env).1.filter
      SwapAction.isSend = [] := by
  unfold VariantPath.executeSwap VariantPath.swapPhase VariantSingle.executeSwap
  rw [h]
  refine ⟨rfl, ?_, ?_, rfl, by simp [SwapAction.isEstimate], by simp [SwapAction.isSend]⟩
  · simp [List.filter_append, approveActions_no_estimate, SwapAction.isEstimate]
  · simp [List.filter_append, approveActions_no_send, SwapAction.isSend]

/-- Witness for C9 at the reverting example environment. -/
theorem simulation_revert_blocks_swap_witness :
    revertEnv.staticCallError = some "execution reverted" ∧
    (VariantPath.executeSwap routerAddressEx twoHopTradeIn optionsEx revertEnv).2 =
      .error "execution reverted" ∧
    (VariantPath.executeSwap routerAddressEx twoHopTradeIn optionsEx revertEnv).1.filter
      SwapAction.isSend = [] ∧
    (VariantSingle.executeSwap routerAddressEx twoHopTradeIn optionsEx revertEnv).2 =
      .error "execution reverted" := by
  have h := simulation_revert_blocks_swap routerAddressEx twoHopTradeIn optionsEx
    revertEnv "execution reverted" rfl
  exact ⟨rfl, h.1, h.2.2.1, h.2.2.2.1⟩

/-- C10: whenever `approveTokenIfNeeded` does emit an approval (ERC-20
input token, standing allowance below the required amount), the submitted
approval requests the unlimited `MaxUint256 = 2^256 - 1` allowance for the
router — not the required amount that was passed in. -/
theorem approve_requests_unlimited_allowance (routerAddress : String) (token : Token)
    (amount : Int) (env : ExecEnv)
    (hz : token.address ≠ ZeroAddress) (hlt : env.allowance < amount) :
    approveTokenIfNeeded routerAddress token amount env =
      [.allowanceRead token.address env.signerAddress routerAddress,
       .approve token.address routerAddress MaxUint256,
       .approveWait] ∧
    MaxUint256 = 2 ^ 256 - 1 ∧
    (amount < MaxUint256 →
      SwapAction.approve token.address routerAddress amount ∉
        approveTokenIfNeeded routerAddress token amount env) := by
  have h1 : approveTokenIfNeeded routerAddress token amount env =
      [.allowanceRead token.address env.signerAddress routerAddress,
       .approve token.address routerAddress MaxUint256,
       .approveWait] := by
    unfold approveTokenIfNeeded
    rw [if_neg hz, if_pos hlt]
  refine ⟨h1, rfl, ?_⟩
  intro hamt hmem
  rw [h1] at hmem
  simp at hmem
  exact absurd hmem (ne_of_lt hamt)

/-- Witness for C10: an approval emitted for the example USDC trade with
zero standing allowance requests `MaxUint256`. -/
theorem approve_requests_unlimited_allowance_witness :
    usdcToken.address ≠ ZeroAddress ∧
    lowAllowanceEnv.allowance < 100000 ∧
    approveTokenIfNeeded routerAddressEx usdcToken 100000 lowAllowanceEnv =
      [.allowanceRead usdcToken.address lowAllowanceEnv.signerAddress routerAddressEx,
       .approve usdcToken.address routerAddressEx MaxUint256,
       .approveWait] :=
  ⟨by decide, by decide,
   (approve_requests_unlimited_allowance routerAddressEx usdcToken 100000 lowAllowanceEnv
     (by decide) (by decide)).1⟩
